import Mathlib

/-
Verification development for the vector-space-visualizer repository.

Shallow embedding conventions:
* JavaScript floating-point numbers are modelled as rationals (`ℚ`).  The
  transcendental library functions (`Math.sqrt`, `Math.sin`, `Math.cos`,
  `Math.acos`, `Math.exp`) and the constant `Math.PI` are abstract
  parameters (a `ℚ → ℚ` function, resp. a `ℚ` constant), since on any
  concrete double input the JavaScript implementation returns one concrete
  double; theorems assume only the properties of those functions that the
  IEEE implementations satisfy (e.g. `sqrt` of a non-negative number is
  non-negative).  `Rat.sqrt` serves as a concrete instance in witnesses.
* `Math.random()` is modelled as an oracle stream `rand : ℕ → ℚ`; each
  call site reads a dedicated index of the stream.
* The only NaN/Infinity hazard in the layout loop is the division by the
  pairwise distance, so that code path is `Option`-valued: `none` models
  the propagation of a NaN born from division by zero.
* Arrays indexed in-bounds are modelled either as `List`s or as functions
  `ℕ → _` (for arrays that are mutated by index, such as `forces`).

Source map (file `src/space_generator.js` = SG, `src/quantum-assembly.js` = QA):
* `projectTo3D`                    (SG 260-311)  → `projectTo3D` below
* `batchSimilarity`                (SG 206-230)  → `batchSimilarity`
* `calculateCurvature`             (SG 233-257)  → `calculateCurvature`
* `generateFibonacciExpansion`     (QA 822-903)  → `generateFibonacciExpansion`
* `getFibonacciNumber`             (QA 906-915)  → `getFibonacciNumber`
* `calculatePotentialConnections`  (QA 1153-1174)→ `calculatePotentialConnections`
* `updateContextDecay`             (QA 1977-2041)→ `updateContextDecay`
* `enterSuperposition`             (QA 504-567)  → `enterSuperpositionM`
* `collapseToShape`                (QA 636-816)  → `submitQuestion` /
  `llmFailureStep` / `llmSuccessStep` (the synchronous segments of the
  async function, cut at its `await` points)
* the Enter-key handler            (QA 2397-2414)→ `submitQuestion`
* the Space-key handler            (QA 2543-2558)→ `handleSpaceKey`
-/

/-- 3D vector of rationals, modelling a `THREE.Vector3` of doubles. -/
@[ext]
structure Vec3 where
  x : ℚ
  y : ℚ
  z : ℚ
deriving DecidableEq, Repr

namespace Vec3

instance : Zero Vec3 := ⟨⟨0, 0, 0⟩⟩

instance : Add Vec3 := ⟨fun a b => ⟨a.x + b.x, a.y + b.y, a.z + b.z⟩⟩

instance : Neg Vec3 := ⟨fun a => ⟨-a.x, -a.y, -a.z⟩⟩

instance : Sub Vec3 := ⟨fun a b => ⟨a.x - b.x, a.y - b.y, a.z - b.z⟩⟩

instance : SMul ℚ Vec3 := ⟨fun c a => ⟨c * a.x, c * a.y, c * a.z⟩⟩

@[simp] theorem zero_x : (0 : Vec3).x = 0 := rfl

@[simp] theorem zero_y : (0 : Vec3).y = 0 := rfl

@[simp] theorem zero_z : (0 : Vec3).z = 0 := rfl

@[simp] theorem add_x (a b : Vec3) : (a + b).x = a.x + b.x := rfl

@[simp] theorem add_y (a b : Vec3) : (a + b).y = a.y + b.y := rfl

@[simp] theorem add_z (a b : Vec3) : (a + b).z = a.z + b.z := rfl

@[simp] theorem neg_x (a : Vec3) : (-a).x = -a.x := rfl

@[simp] theorem neg_y (a : Vec3) : (-a).y = -a.y := rfl

@[simp] theorem neg_z (a : Vec3) : (-a).z = -a.z := rfl

@[simp] theorem sub_x (a b : Vec3) : (a - b).x = a.x - b.x := rfl

@[simp] theorem sub_y (a b : Vec3) : (a - b).y = a.y - b.y := rfl

@[simp] theorem sub_z (a b : Vec3) : (a - b).z = a.z - b.z := rfl

@[simp] theorem smul_x (c : ℚ) (a : Vec3) : (c • a).x = c * a.x := rfl

@[simp] theorem smul_y (c : ℚ) (a : Vec3) : (c • a).y = c * a.y := rfl

@[simp] theorem smul_z (c : ℚ) (a : Vec3) : (c • a).z = c * a.z := rfl

instance : AddCommGroup Vec3 where
  add_assoc a b c := by ext <;> simp <;> ring
  zero_add a := by ext <;> simp
  add_zero a := by ext <;> simp
  add_comm a b := by ext <;> simp <;> ring
  neg_add_cancel a := by ext <;> simp
  nsmul := nsmulRec
  zsmul := zsmulRec
  sub_eq_add_neg a b := by ext <;> simp <;> ring

instance : Module ℚ Vec3 where
  one_smul a := by ext <;> simp
  mul_smul c d a := by ext <;> simp <;> ring
  smul_zero c := by ext <;> simp
  smul_add c a b := by ext <;> simp <;> ring
  add_smul c d a := by ext <;> simp <;> ring
  zero_smul a := by ext <;> simp

end Vec3

-- =============================================================================
-- LayoutEngine: `projectTo3D` (src/space_generator.js lines 260-311)
-- =============================================================================

/-- The random initial placement, SG lines 266-272:
`(Math.random() - 0.5) * 20` per coordinate; point `i` reads oracle
indices `3i, 3i+1, 3i+2`. -/
def initPos (rand : ℕ → ℚ) : ℕ → Vec3 := fun i =>
  ⟨(rand (3 * i) - 1 / 2) * 20,
   (rand (3 * i + 1) - 1 / 2) * 20,
   (rand (3 * i + 2) - 1 / 2) * 20⟩

/-- The index pairs `(i, j)` with `i < j < n`, in the order visited by the
nested loops `for i in [0,n) for j in [i+1,n)` shared by SG 282-283 and
QA 1156-1157. -/
def loopPairs (n : ℕ) : List (ℕ × ℕ) :=
  (List.range n).flatMap fun i =>
    (List.range' (i + 1) (n - (i + 1))).map fun j => (i, j)

/-- One pairwise spring-force accumulation, SG lines 284-298.
`forces[i] += force * d; forces[j] -= force * d` is modelled by two
successive `Function.update`s of the force table.  The division by
`dist` is the one place a NaN could be born, hence the `Option`. -/
def applyPairForce (sqrtFn : ℚ → ℚ) (distM : ℕ → ℕ → ℚ) (pos : ℕ → Vec3)
    (F : ℕ → Vec3) (ij : ℕ × ℕ) : Option (ℕ → Vec3) :=
  let i := ij.1
  let j := ij.2
  let dx := (pos j).x - (pos i).x
  let dy := (pos j).y - (pos i).y
  let dz := (pos j).z - (pos i).z
  -- `const dist = Math.sqrt(dx*dx + dy*dy + dz*dz) || 0.1;`
  let dist0 := sqrtFn (dx * dx + dy * dy + dz * dz)
  let dist := if dist0 = 0 then 1 / 10 else dist0
  if dist = 0 then none  -- division by zero would produce NaN
  else
    let targetDist := distM i j * 10      -- `distances[i][j] * 10`
    let force := 1 / 10 * (dist - targetDist) / dist  -- `k * (dist - targetDist) / dist`
    let fv : Vec3 := ⟨force * dx, force * dy, force * dz⟩
    let F1 := Function.update F i (F i + fv)
    some (Function.update F1 j (F1 j - fv))

/-- One relaxation iteration, SG lines 279-307: accumulate forces over all
pairs, then `positions[i] += forces[i] * 0.1` simultaneously. -/
def iterStep (sqrtFn : ℚ → ℚ) (distM : ℕ → ℕ → ℚ) (n : ℕ) (pos : ℕ → Vec3) :
    Option (ℕ → Vec3) :=
  ((loopPairs n).foldlM (applyPairForce sqrtFn distM pos) (fun _ => (0 : Vec3))).map
    fun F => fun i => pos i + (1 / 10 : ℚ) • F i

/-- `projectTo3D` (SG 260-311): random init, 100 spring iterations with
`k = 0.1`, learning rate `0.1`, scale factor `10`; returns the `n`
positions.  `n` stands for `words.length`. -/
def projectTo3D (sqrtFn : ℚ → ℚ) (rand : ℕ → ℚ) (n : ℕ)
    (distM : ℕ → ℕ → ℚ) : Option (List Vec3) :=
  ((List.range 100).foldlM (fun pos _ => iterStep sqrtFn distM n pos)
    (initPos rand)).map fun pos => (List.range n).map pos

example : loopPairs 2 = [(0, 1)] := by decide

example : loopPairs 3 = [(0, 1), (0, 2), (1, 2)] := by decide

-- =============================================================================
-- LLM response post-processing: `batchSimilarity` (SG 206-230) and
-- `calculateCurvature` (SG 233-257)
-- =============================================================================

/-- The `while (numbers.length < target) numbers.push(d)` padding loop
followed by `slice(0, target)`, SG lines 225-229 / 252-256. -/
def padSlice (d : ℚ) (target : ℕ) (l : List ℚ) : List ℚ :=
  (l ++ List.replicate (target - l.length) d).take target

/-- `batchSimilarity` (SG 206-230).  The network layer (`queryGroq`) and
`parseFloat` are external: a failed call is `none`; a successful call is
the per-line parse results, where an unparseable line (`parseFloat`
returned NaN) is `none`.  Values outside `[0,1]` are filtered out
(`.filter(n => !isNaN(n) && n >= 0 && n <= 1)`), then the list is padded
with the default `0.5` and sliced to the neighbor count. -/
def batchSimilarity (response : Option (List (Option ℚ)))
    (neighbors : List String) : List ℚ :=
  match response with
  | none => neighbors.map fun _ => 1 / 2          -- `return neighbors.map(() => 0.5)`
  | some lines =>
      let numbers := (lines.filterMap id).filter fun v => 0 ≤ v ∧ v ≤ 1
      padSlice (1 / 2) neighbors.length numbers

/-- `calculateCurvature` (SG 233-257): same shape with range `[0,10]` and
default `2.0`. -/
def calculateCurvature (response : Option (List (Option ℚ)))
    (words : List String) : List ℚ :=
  match response with
  | none => words.map fun _ => 2                  -- `return words.map(() => 2.0)`
  | some lines =>
      let ratings := (lines.filterMap id).filter fun v => 0 ≤ v ∧ v ≤ 10
      padSlice 2 words.length ratings

-- =============================================================================
-- ExpansionGenerator: `generateFibonacciExpansion` (QA 822-903)
-- =============================================================================

/-- The abstract transcendental operations of the JavaScript `Math`
object used by the expansion generator, plus the double constant
`Math.PI`.  Each is deterministic in JavaScript. -/
structure MathOps where
  pi : ℚ
  sinQ : ℚ → ℚ
  cosQ : ℚ → ℚ
  acosQ : ℚ → ℚ
  expQ : ℚ → ℚ
  sqrtQ : ℚ → ℚ

/-- `v1.distanceTo(v2)` of `THREE.Vector3`: the square root of the sum of
squared coordinate differences. -/
def vdist (sqrtFn : ℚ → ℚ) (a b : Vec3) : ℚ :=
  sqrtFn ((b.x - a.x) * (b.x - a.x) + (b.y - a.y) * (b.y - a.y) +
    (b.z - a.z) * (b.z - a.z))

/-- A core node as read by the expansion generator: its `targetPosition`
and `curvature` fields (QA 830, 855, 874, 887). -/
structure CoreEntity where
  targetPosition : Vec3
  curvature : ℚ
deriving DecidableEq, Repr

instance : Inhabited CoreEntity := ⟨⟨0, 0⟩⟩

/-- A generated satellite node (QA 890-897). -/
structure FibNode where
  position : Vec3
  curvature : ℚ
  centrality : ℚ
  parentNode : CoreEntity
  index : ℕ
  distanceFromParent : ℚ
deriving DecidableEq, Repr

/-- `getFibonacciNumber` (QA 906-915): iterative Fibonacci,
`fib 0 = 0, fib 1 = 1`. -/
def getFibonacciNumber : ℕ → ℕ
  | 0 => 0
  | 1 => 1
  | n + 2 => getFibonacciNumber n + getFibonacciNumber (n + 1)

/-- `GOLDEN_ANGLE = 137.5077640` (QA 60). -/
def GOLDEN_ANGLE : ℚ := 137507764 / 1000000

/-- `FIBONACCI_SCALE = 0.5` (QA 62). -/
def FIBONACCI_SCALE : ℚ := 1 / 2

/-- The JavaScript truthiness default `node.curvature || 5.0`
(QA 855, 887): `0` is falsy. -/
def curvatureOr5 (c : ℚ) : ℚ := if c = 0 then 5 else c

/-- The parent-selection scan (QA 864-871): the first index `j` with
`rand < cumulativeWeights[j]`, else the initial value `coreNodes[0]`. -/
def selectParentIdx (cumulative : List ℚ) (r : ℚ) : ℕ :=
  match cumulative.findIdx? fun c => r < c with
  | some j => j
  | none => 0

/-- The cumulative-probability table (QA 855-862):
`cumulativeWeights[j] = (w_0 + ... + w_j) / totalWeight` with
`w_i = coreNodes[i].curvature || 5.0`. -/
def cumulativeWeights (coreNodes : List CoreEntity) : List ℚ :=
  let coreWeights := coreNodes.map fun nd => curvatureOr5 nd.curvature
  let totalWeight := coreWeights.sum
  (List.range coreNodes.length).map fun j =>
    ((coreWeights.take (j + 1)).sum) / totalWeight

/-- One satellite of the expansion, QA 833-898, for Fibonacci index `i`. -/
def fibSatellite (ops : MathOps) (coreNodes : List CoreEntity)
    (centerOfMass : Vec3) (i : ℕ) : FibNode :=
  let goldenAngleRad := GOLDEN_ANGLE * ops.pi / 180
  let theta := (i : ℚ) * goldenAngleRad
  let fibNumber := getFibonacciNumber (i / 10 + 1)
  let baseRadius := ops.sqrtQ ((i : ℚ) + 1) * FIBONACCI_SCALE
  let radius := baseRadius * (1 + ((fibNumber % 5 : ℕ) : ℚ) * (1 / 10))
  let phi := ops.acosQ (1 - 2 * ((i % 89 : ℕ) : ℚ) / 89)
  let r := ((i % 100 : ℕ) : ℚ) / 100
  let j := selectParentIdx (cumulativeWeights coreNodes) r
  let nearestCore := coreNodes.getD j (coreNodes.headI)
  let corePos := nearestCore.targetPosition
  let position : Vec3 :=
    ⟨corePos.x + radius * ops.sinQ phi * ops.cosQ theta,
     corePos.y + radius * ops.sinQ phi * ops.sinQ theta,
     corePos.z + radius * ops.cosQ phi⟩
  let distanceFromCore := vdist ops.sqrtQ position corePos
  let inheritanceFactor := ops.expQ (-distanceFromCore / 5)
  { position := position
    curvature := curvatureOr5 nearestCore.curvature * inheritanceFactor
    centrality := vdist ops.sqrtQ position centerOfMass
    parentNode := nearestCore
    index := i
    distanceFromParent := distanceFromCore }

/-- `generateFibonacciExpansion` (QA 822-903).  The `rand` oracle is
threaded (as to every routine of the embedding) but the source function
contains no `Math.random()` call — the claimed determinism.  The
center of mass is the mean of core target positions (QA 828-831). -/
def generateFibonacciExpansion (ops : MathOps) (rand : ℕ → ℚ)
    (coreNodes : List CoreEntity) (count : ℕ) : List FibNode :=
  let centerOfMass : Vec3 :=
    ((coreNodes.length : ℚ)⁻¹) • (coreNodes.map (·.targetPosition)).sum
  (List.range count).map (fibSatellite ops coreNodes centerOfMass)

-- =============================================================================
-- ConnectivityBuilder: `calculatePotentialConnections` (QA 1153-1174)
-- =============================================================================

/-- `CONNECTION_THRESHOLD = 3.0` (QA 55). -/
def CONNECTION_THRESHOLD : ℚ := 3

/-- A particle as read by the connection scan: whether it has a
`targetPosition`. -/
structure ConnParticle where
  targetPosition : Option Vec3
deriving DecidableEq, Repr

/-- A potential connection (QA 1163-1168), with the two particles
referenced by pool index. -/
structure PotentialConnection where
  p1 : ℕ
  p2 : ℕ
  distance : ℚ
  formed : Bool
deriving DecidableEq, Repr

/-- The body of the nested connection loop for one index pair
(QA 1158-1169): `continue` on a missing target position (modelled as
`none`-propagation of `Option.bind`), otherwise keep the pair when the
target-position distance is below `CONNECTION_THRESHOLD`. -/
def connCandidate (sqrtFn : ℚ → ℚ) (particles : List ConnParticle)
    (ij : ℕ × ℕ) : Option PotentialConnection :=
  (particles.getD ij.1 ⟨none⟩).targetPosition.bind fun ta =>
    (particles.getD ij.2 ⟨none⟩).targetPosition.bind fun tb =>
      if vdist sqrtFn ta tb < CONNECTION_THRESHOLD then
        some ⟨ij.1, ij.2, vdist sqrtFn ta tb, false⟩
      else none

/-- `calculatePotentialConnections` (QA 1153-1174): scan all `i < j`
pairs, skip pairs lacking a target position, keep those whose
target-position distance is below `CONNECTION_THRESHOLD`. -/
def calculatePotentialConnections (sqrtFn : ℚ → ℚ)
    (particles : List ConnParticle) : List PotentialConnection :=
  (loopPairs particles.length).filterMap (connCandidate sqrtFn particles)

-- =============================================================================
-- AssemblyController event machine (src/quantum-assembly.js)
-- =============================================================================

/-- The values taken by the globals `particleState` / `assemblyPhase`.
The spec names map as: IDLE = `SUPERPOSITION`, COLLAPSING = `VOID`,
ATTRACTING = `ATTRACTION`, CONNECTING = `BONDING`, SETTLING =
`STABILIZATION`, OBSERVED = `OBSERVATION`/`ASSEMBLED`. -/
inductive PhaseName
  | SUPERPOSITION
  | VOID
  | ATTRACTION
  | BONDING
  | STABILIZATION
  | OBSERVATION
  | ASSEMBLED
deriving DecidableEq, Repr

/-- An in-flight `requestAnimationFrame` continuation of one phase's
`animate` loop (QA 1192-1231 and the analogous loops of the later
phases), tagged with the `collapseToShape` invocation that started it. -/
structure FrameTask where
  assemblyId : ℕ
  phase : PhaseName
deriving DecidableEq, Repr

/-- The actions schedulable through `setTimeout` that the claims touch:
the error path `setTimeout(() => enterSuperposition(), 2000)`
(QA 812-814). -/
inductive TimeoutAction
  | enterSuperpositionTimeout
deriving DecidableEq, Repr

/-- The per-particle fields read/written by `updateContextDecay` and
`enterSuperposition`. -/
structure DecayParticle where
  pos : Vec3
  vel : Vec3
  targetPosition : Option Vec3
  superpositionTarget : Option Vec3
  visible : Bool
  curvature : ℚ
deriving DecidableEq, Repr

/-- The per-connection visual fields faded during decay (QA 2031-2034). -/
structure ConnVisual where
  baseOpacity : ℚ
  opacity : ℚ
  emissiveIntensity : ℚ
deriving DecidableEq, Repr

/-- The global mutable state of the controller that the claims touch:
the state-machine globals (QA 27-43), the clock, the particle pool, the
connection list, and the event-loop bookkeeping (pending
`requestAnimationFrame` callbacks, pending `setTimeout`s, and the
`particleAnimationIntervals` list of `setInterval` ids, QA 43). -/
structure Sim where
  particleState : PhaseName
  assemblyPhase : PhaseName
  isDecaying : Bool
  decayPaused : Bool
  autoRotate : Bool
  statusText : String
  now : ℚ
  decayStartTime : ℚ
  particles : List DecayParticle
  connections : List ConnVisual
  pendingFrames : List FrameTask
  pendingTimeouts : List (ℚ × TimeoutAction)
  intervalTimers : List ℕ
  assemblyId : ℕ
deriving DecidableEq, Repr

/-- `CONTEXT_DECAY_START = 30000` (QA 65). -/
def CONTEXT_DECAY_START : ℚ := 30000

/-- `CONTEXT_DECAY_DURATION = 45000` (QA 66). -/
def CONTEXT_DECAY_DURATION : ℚ := 45000

/-- `clearToroidalVoidLayer` (QA 1125-1147): among the claim-relevant
state it clears the `particleAnimationIntervals` interval timers
(QA 1143-1144); it does not touch `pendingFrames` or `pendingTimeouts`
(the file contains no `cancelAnimationFrame` or `clearTimeout` call). -/
def clearToroidalVoidLayerM (st : Sim) : Sim :=
  { st with intervalTimers := [] }

/-- The random resting placement of one particle: the
`phi/theta/r` spherical sample shared by `enterSuperposition`
(QA 548-556) and the decay resting target (QA 2005-2013).  Particle
`idx` reads oracle indices `6*idx .. 6*idx+2`. -/
def superposSample (ops : MathOps) (rand : ℕ → ℚ) (idx : ℕ) : Vec3 :=
  let phi := rand (6 * idx) * ops.pi * 2
  let theta := rand (6 * idx + 1) * ops.pi
  let r := 10 + rand (6 * idx + 2) * 15
  ⟨r * ops.sinQ theta * ops.cosQ phi,
   r * ops.sinQ theta * ops.sinQ phi,
   r * ops.cosQ theta⟩

/-- `enterSuperposition` (QA 504-567): the resting/IDLE state.  Resets
the decay and pause flags, clears the toroidal interval timers, hides
every particle and resets its semantic fields (`targetPosition` is NOT
cleared by the source), re-randomizes resting positions, and clears all
connections. -/
def enterSuperpositionM (ops : MathOps) (rand : ℕ → ℚ) (st : Sim) : Sim :=
  let st := clearToroidalVoidLayerM st
  { st with
    particleState := PhaseName.SUPERPOSITION
    isDecaying := false
    decayPaused := false
    particles := st.particles.mapIdx fun idx p =>
      { p with
        visible := false
        curvature := 0
        superpositionTarget := none
        pos := superposSample ops rand idx }
    connections := [] }

/-- The synchronous entry segment of `collapseToShape` (QA 636-679), up
to its first `await` (the `generateSpace` call): reset the inspection
state (`decayPaused`, `isDecaying`, QA 643-645), clear the previous
toroidal layer (QA 658), and post the progress status (QA 672).  A new
`assemblyId` is minted for the new assembly's frame tasks.  Nothing
else of the previous assembly's event-loop bookkeeping is touched. -/
def collapseEntry (st : Sim) : Sim :=
  let st := clearToroidalVoidLayerM st
  { st with
    decayPaused := false
    isDecaying := false
    statusText := "Generating semantic space..."
    assemblyId := st.assemblyId + 1 }

/-- The Enter-key handler (QA 2397-2414): an empty (trimmed) question is
rejected with no state change; otherwise `collapseToShape` starts and
runs synchronously to its first `await`.  `q` stands for the trimmed
input value. -/
def submitQuestion (q : String) (st : Sim) : Sim :=
  if q = "" then st else collapseEntry st

/-- The `catch` branch of `collapseToShape` (QA 802-815), entered when
`generateSpace` rejects (e.g. `generateCoreWords` threw
`'Failed to generate words from LLM'` on a failed provider call,
SG 139-141): a visible error status and a 2000 ms timeout that re-enters
superposition. -/
def llmFailureStep (msg : String) (st : Sim) : Sim :=
  { st with
    statusText := "Assembly failed: " ++ msg
    pendingTimeouts := (2000, TimeoutAction.enterSuperpositionTimeout) :: st.pendingTimeouts }

/-- The resumption of `collapseToShape` when `generateSpace` resolves
(QA 681-762) through the synchronous start of `phaseVoid`
(QA 1177-1194, first `animate` scheduling QA 1223/1230): the machine
moves to `VOID` (the spec's COLLAPSING) and the new assembly's first
animation-frame task is registered.  Note nothing here removes the
previous assembly's pending frame tasks. -/
def llmSuccessStep (st : Sim) : Sim :=
  { st with
    isDecaying := false
    particleState := PhaseName.VOID
    assemblyPhase := PhaseName.VOID
    statusText := "Wavefunction collapsing - nodes crystallizing..."
    pendingFrames := ⟨st.assemblyId, PhaseName.VOID⟩ :: st.pendingFrames }

/-- Firing a scheduled timeout action. -/
def runTimeoutAction (ops : MathOps) (rand : ℕ → ℚ) (act : TimeoutAction)
    (st : Sim) : Sim :=
  match act with
  | TimeoutAction.enterSuperpositionTimeout => enterSuperpositionM ops rand st

/-- The Space-key handler (QA 2543-2558): only when
`assemblyPhase === 'ASSEMBLED' && isDecaying` does it toggle
`decayPaused` (and the status text and auto-rotation); in every other
phase the keypress is ignored. -/
def handleSpaceKey (st : Sim) : Sim :=
  if st.assemblyPhase = PhaseName.ASSEMBLED ∧ st.isDecaying then
    let p := !st.decayPaused
    { st with
      decayPaused := p
      statusText := if p then "Decay paused - inspecting shape (press SPACE to resume)"
        else "Context decaying into void..."
      autoRotate := !p }
  else st

/-- The per-particle movement of one unpaused decay frame
(QA 2000-2028): lazily create the random resting target, lerp toward it
by `decayProgress * 0.02`, add Brownian velocity noise scaled by
`decayProgress`, apply velocity, damp by `0.98`.  Particle `idx` reads
oracle indices `6*idx .. 6*idx+5`. -/
def decayParticleUpdate (ops : MathOps) (rand : ℕ → ℚ) (decayProgress : ℚ)
    (idx : ℕ) (p : DecayParticle) : DecayParticle :=
  match p.targetPosition with
  | none => p                           -- `if (!particle.targetPosition) return;`
  | some _ =>
    let tgt := match p.superpositionTarget with
      | some t => t
      | none => superposSample ops rand idx
    let blended := p.pos + (decayProgress * (1 / 50)) • (tgt - p.pos)  -- `lerp(target, decayProgress * 0.02)`
    let brown : Vec3 :=
      ⟨(rand (6 * idx + 3) - 1 / 2) * (1 / 100) * decayProgress,
       (rand (6 * idx + 4) - 1 / 2) * (1 / 100) * decayProgress,
       (rand (6 * idx + 5) - 1 / 2) * (1 / 100) * decayProgress⟩
    let vel1 := p.vel + brown
    { p with
      superpositionTarget := some tgt
      pos := blended + vel1             -- `position.copy(blended)` then `.add(velocity)`
      vel := (49 / 50 : ℚ) • vel1 }     -- `velocity.multiplyScalar(0.98)`

/-- `updateContextDecay` (QA 1977-2041), one frame of the decay logic:
only in `ASSEMBLED`; flips `isDecaying` once the dwell elapsed
(QA 1983-1988); returns untouched while `decayPaused` (QA 1992-1993);
otherwise applies the wall-clock-derived
`decayProgress = min(1, (elapsed - START) / DURATION)` (QA 1996-1997)
to particles and connection opacities, and re-enters superposition when
the progress reaches 1 (QA 2037-2040). -/
def updateContextDecay (ops : MathOps) (rand : ℕ → ℚ) (st : Sim) : Sim :=
  if st.particleState ≠ PhaseName.ASSEMBLED then st
  else
    let elapsed := st.now - st.decayStartTime
    let st1 :=
      if CONTEXT_DECAY_START < elapsed ∧ st.isDecaying = false then
        { st with
          isDecaying := true
          statusText := "Context fading... shape dissolving... (press SPACE to pause)" }
      else st
    if st1.isDecaying = false then st1
    else if st1.decayPaused then st1
    else
      let decayElapsed := elapsed - CONTEXT_DECAY_START
      let decayProgress := min 1 (decayElapsed / CONTEXT_DECAY_DURATION)
      let st2 :=
        { st1 with
          particles := st1.particles.mapIdx fun idx p =>
            decayParticleUpdate ops rand decayProgress idx p
          connections := st1.connections.map fun c =>
            { c with
              opacity := c.baseOpacity * (1 - decayProgress * (4 / 5))
              emissiveIntensity := 1 / 2 * (1 - decayProgress) } }
      if 1 ≤ decayProgress then enterSuperpositionM ops rand st2 else st2

-- =============================================================================
-- Concrete instances used by witnesses and counterexamples
-- =============================================================================

instance : Inhabited FibNode := ⟨⟨0, 0, 0, ⟨0, 0⟩, 0, 0⟩⟩

instance : Inhabited DecayParticle := ⟨⟨0, 0, none, none, false, 0⟩⟩

/-- A concrete instantiation of the abstract `Math` operations.  Only
`sqrtQ` and `expQ` influence the facts proved about it, and only at the
inputs `0` and `1`, where the identity function agrees exactly with the
IEEE `Math.sqrt` (`sqrt 0 = 0`, `sqrt 1 = 1`) and the constant `1` with
`Math.exp` at `0` (`exp 0 = 1`); the trigonometric slots are
arbitrary. -/
def cexOps : MathOps :=
  { pi := 0
    sinQ := fun _ => 0
    cosQ := fun _ => 0
    acosQ := fun _ => 0
    expQ := fun _ => 1
    sqrtQ := fun q => q }

/-- A second concrete instantiation whose `expQ` is the constant `1/2`,
a value the IEEE `Math.exp` can take on negative inputs; used to
discharge the decay bounds `0 ≤ exp q ≤ 1` for `q ≤ 0` in witnesses. -/
def witOps : MathOps :=
  { pi := 0
    sinQ := fun _ => 0
    cosQ := fun _ => 0
    acosQ := fun _ => 0
    expQ := fun _ => 1 / 2
    sqrtQ := fun q => q }

/-- A controller state in the middle of a previous assembly's
`ATTRACTION` phase: one in-flight animation-frame task of assembly 1 and
one live toroidal interval timer. -/
def midAssemblySim : Sim :=
  { particleState := PhaseName.ATTRACTION
    assemblyPhase := PhaseName.ATTRACTION
    isDecaying := false
    decayPaused := false
    autoRotate := true
    statusText := "Attraction: Forces emerging..."
    now := 1000
    decayStartTime := 0
    particles := []
    connections := []
    pendingFrames := [⟨1, PhaseName.ATTRACTION⟩]
    pendingTimeouts := []
    intervalTimers := [7]
    assemblyId := 1 }

/-- One assembled particle resting at the origin with its decay resting
target already assigned at `(9,0,0)`. -/
def decayCexParticle : DecayParticle :=
  { pos := ⟨0, 0, 0⟩
    vel := ⟨0, 0, 0⟩
    targetPosition := some ⟨0, 0, 0⟩
    superpositionTarget := some ⟨9, 0, 0⟩
    visible := true
    curvature := 1 }

/-- An assembled, decaying controller state paused at wall-clock time
35000 ms (assembly finished at 0 ms), i.e. at decay progress
`(35000 - 30000) / 45000 = 1/9`. -/
def decayPausedSim : Sim :=
  { particleState := PhaseName.ASSEMBLED
    assemblyPhase := PhaseName.ASSEMBLED
    isDecaying := true
    decayPaused := true
    autoRotate := false
    statusText := "Decay paused - inspecting shape (press SPACE to resume)"
    now := 35000
    decayStartTime := 0
    particles := [decayCexParticle]
    connections := [⟨1, 1, 1 / 2⟩]
    pendingFrames := []
    pendingTimeouts := []
    intervalTimers := []
    assemblyId := 1 }

/-- The same state 5000 ms later, the instant after the pause is
released (wall-clock 40000 ms, so the code's wall-clock-derived decay
progress is `(40000 - 30000) / 45000 = 2/9`). -/
def decayResumedSim : Sim :=
  { decayPausedSim with
    decayPaused := false
    autoRotate := true
    statusText := "Context decaying into void..."
    now := 40000 }

-- =============================================================================
-- Helper lemmas
-- =============================================================================

theorem loopPairs_mem {n : ℕ} {ij : ℕ × ℕ} (h : ij ∈ loopPairs n) :
    ij.1 < ij.2 ∧ ij.2 < n := by
  obtain ⟨i, j⟩ := ij
  unfold loopPairs at h
  rw [List.mem_flatMap] at h
  obtain ⟨a, ha, hm⟩ := h
  rw [List.mem_map] at hm
  obtain ⟨b, hb, heq⟩ := hm
  cases heq
  rw [List.mem_range] at ha
  rw [List.mem_range'_1] at hb
  omega

theorem loopPairs_nodup (n : ℕ) : (loopPairs n).Nodup := by
  unfold loopPairs
  rw [List.nodup_flatMap]
  constructor
  · intro i _
    exact (List.nodup_range' ..).map fun a b hab => by
      simpa using congrArg Prod.snd hab
  · refine List.Pairwise.imp ?_ (List.nodup_range n)
    intro a b hab
    intro x hxa hxb
    rw [List.mem_map] at hxa hxb
    obtain ⟨u, _, hu⟩ := hxa
    obtain ⟨v, _, hv⟩ := hxb
    exact hab ((congrArg Prod.fst hu).trans (congrArg Prod.fst hv).symm)

theorem foldlM_option_isSome {α β : Type} (g : β → α → Option β) :
    ∀ (l : List α) (b : β), (∀ c a, a ∈ l → (g c a).isSome) → (l.foldlM g b).isSome := by
  intro l
  induction l with
  | nil => intro b _; rfl
  | cons a t ih =>
    intro b h
    obtain ⟨c, hc⟩ := Option.isSome_iff_exists.mp (h b a (List.mem_cons_self a t))
    rw [List.foldlM_cons, hc]
    exact ih c fun c' a' ha' => h c' a' (List.mem_cons_of_mem _ ha')

theorem foldlM_option_preserve {α β : Type} (g : β → α → Option β) (P : β → Prop) :
    ∀ (l : List α) (b : β), P b →
      (∀ c a d, a ∈ l → P c → g c a = some d → P d) →
      ∀ out, l.foldlM g b = some out → P out := by
  intro l
  induction l with
  | nil =>
    intro b hb _ out hout
    have hbo : b = out := by simpa using hout
    rw [← hbo]
    exact hb
  | cons a t ih =>
    intro b hb h out hout
    rw [List.foldlM_cons] at hout
    cases hg : g b a with
    | none => rw [hg] at hout; exact absurd hout (by simp)
    | some c =>
      rw [hg] at hout
      exact ih c (h b a c (List.mem_cons_self a t) hb hg)
        (fun c' a' d ha' => h c' a' d (List.mem_cons_of_mem _ ha')) out (by simpa using hout)

theorem map_filterMap_sublist {α β : Type} (g : α → Option β) (p : β → α)
    (h : ∀ a b, g a = some b → p b = a) :
    ∀ l : List α, ((l.filterMap g).map p).Sublist l := by
  intro l
  induction l with
  | nil => simp
  | cons a t ih =>
    cases hg : g a with
    | none =>
      rw [List.filterMap_cons_none hg]
      exact ih.cons a
    | some b =>
      rw [List.filterMap_cons_some hg, List.map_cons, h a b hg]
      exact ih.cons₂ a

theorem padSlice_length (d : ℚ) (target : ℕ) (l : List ℚ) :
    (padSlice d target l).length = target := by
  unfold padSlice
  rw [List.length_take, List.length_append, List.length_replicate]
  omega

theorem padSlice_mem {d : ℚ} {target : ℕ} {l : List ℚ} {v : ℚ}
    (h : v ∈ padSlice d target l) : v ∈ l ∨ v = d := by
  unfold padSlice at h
  have h2 := (List.take_sublist _ _).subset h
  rw [List.mem_append] at h2
  rcases h2 with h2 | h2
  · exact Or.inl h2
  · exact Or.inr (List.eq_of_mem_replicate h2)

theorem sum_sq3_nonneg (a b c : ℚ) : 0 ≤ a * a + b * b + c * c := by
  have := mul_self_nonneg a
  have := mul_self_nonneg b
  have := mul_self_nonneg c
  linarith

theorem vdist_nonneg {sqrtFn : ℚ → ℚ} (hs : ∀ q : ℚ, 0 ≤ q → 0 ≤ sqrtFn q)
    (a b : Vec3) : 0 ≤ vdist sqrtFn a b :=
  hs _ (sum_sq3_nonneg _ _ _)

theorem getD_headI_mem {l : List CoreEntity} (hne : l ≠ []) (j : ℕ) :
    l.getD j l.headI ∈ l := by
  by_cases hj : j < l.length
  · rw [List.getD_eq_getElem _ _ hj]
    exact List.getElem_mem hj
  · rw [List.getD_eq_default _ _ (by omega)]
    cases l with
    | nil => exact absurd rfl hne
    | cons a t => exact List.mem_cons_self a t

theorem ratSqrt_mul_self {r : ℚ} (h : 0 ≤ r) : Rat.sqrt (r * r) = r := by
  rw [Rat.sqrt_eq, abs_of_nonneg h]

theorem sum_map_range {M : Type} [AddCommMonoid M] (f : ℕ → M) (n : ℕ) :
    ((List.range n).map f).sum = Finset.sum (Finset.range n) f := by
  induction n with
  | zero => simp
  | succ m ih =>
    rw [List.range_succ, List.map_append, List.sum_append, Finset.sum_range_succ, ih]
    simp


theorem fibSatellite_fields (ops : MathOps) (coreNodes : List CoreEntity)
    (com : Vec3) (i : ℕ) :
    (fibSatellite ops coreNodes com i).parentNode =
      coreNodes.getD
        (selectParentIdx (cumulativeWeights coreNodes) (((i % 100 : ℕ) : ℚ) / 100))
        coreNodes.headI ∧
    (fibSatellite ops coreNodes com i).distanceFromParent =
      vdist ops.sqrtQ (fibSatellite ops coreNodes com i).position
        (fibSatellite ops coreNodes com i).parentNode.targetPosition ∧
    (fibSatellite ops coreNodes com i).curvature =
      curvatureOr5 (fibSatellite ops coreNodes com i).parentNode.curvature *
        ops.expQ (-(fibSatellite ops coreNodes com i).distanceFromParent / 5) :=
  ⟨rfl, rfl, rfl⟩

theorem fibSatellite_invariant (ops : MathOps) (coreNodes : List CoreEntity)
    (com : Vec3) (i : ℕ)
    (hne : coreNodes ≠ [])
    (hpos : ∀ c ∈ coreNodes, 0 < c.curvature)
    (hsqrt : ∀ q : ℚ, 0 ≤ q → 0 ≤ ops.sqrtQ q)
    (hexp : ∀ q : ℚ, q ≤ 0 → 0 ≤ ops.expQ q ∧ ops.expQ q ≤ 1) :
    0 ≤ (fibSatellite ops coreNodes com i).distanceFromParent ∧
    (fibSatellite ops coreNodes com i).curvature ≤
      (fibSatellite ops coreNodes com i).parentNode.curvature ∧
    (fibSatellite ops coreNodes com i).parentNode ∈ coreNodes := by
  obtain ⟨hp, hd, hc⟩ := fibSatellite_fields ops coreNodes com i
  have hparent : (fibSatellite ops coreNodes com i).parentNode ∈ coreNodes := by
    rw [hp]; exact getD_headI_mem hne _
  have hdist : 0 ≤ (fibSatellite ops coreNodes com i).distanceFromParent := by
    rw [hd]; exact vdist_nonneg hsqrt _ _
  have hw : 0 < (fibSatellite ops coreNodes com i).parentNode.curvature :=
    hpos _ hparent
  refine ⟨hdist, ?_, hparent⟩
  rw [hc, curvatureOr5, if_neg (ne_of_gt hw)]
  have hexp2 := hexp (-(fibSatellite ops coreNodes com i).distanceFromParent / 5)
    (by linarith)
  calc (fibSatellite ops coreNodes com i).parentNode.curvature *
        ops.expQ (-(fibSatellite ops coreNodes com i).distanceFromParent / 5)
      ≤ (fibSatellite ops coreNodes com i).parentNode.curvature * 1 :=
        mul_le_mul_of_nonneg_left hexp2.2 (le_of_lt hw)
    _ = (fibSatellite ops coreNodes com i).parentNode.curvature := mul_one _

theorem connCandidate_some {sqrtFn : ℚ → ℚ} {particles : List ConnParticle}
    {ij : ℕ × ℕ} {c : PotentialConnection}
    (h : connCandidate sqrtFn particles ij = some c) :
    ∃ ta tb, (particles.getD ij.1 ⟨none⟩).targetPosition = some ta ∧
      (particles.getD ij.2 ⟨none⟩).targetPosition = some tb ∧
      vdist sqrtFn ta tb < CONNECTION_THRESHOLD ∧
      c = ⟨ij.1, ij.2, vdist sqrtFn ta tb, false⟩ := by
  unfold connCandidate at h
  cases hta : (particles.getD ij.1 ⟨none⟩).targetPosition with
  | none => rw [hta] at h; exact absurd h (by simp)
  | some ta =>
    rw [hta] at h
    cases htb : (particles.getD ij.2 ⟨none⟩).targetPosition with
    | none => rw [htb] at h; exact absurd h (by simp)
    | some tb =>
      rw [htb] at h
      simp only [Option.some_bind] at h
      by_cases hd : vdist sqrtFn ta tb < CONNECTION_THRESHOLD
      · rw [if_pos hd] at h
        exact ⟨ta, tb, rfl, rfl, hd, (Option.some.inj h).symm⟩
      · rw [if_neg hd] at h
        exact absurd h (by simp)

-- =============================================================================
-- Claim theorems
-- =============================================================================

/-- C6: the pairwise-similarity and importance-rating calls tolerate
provider failure and malformed data without throwing: on a failed LLM
call (`queryGroq` returned `null`) `batchSimilarity` returns exactly one
`0.5` per requested neighbor and `calculateCurvature` exactly one `2.0`
per word; on a successful call, parsed values outside `[0,1]`
(similarity) resp. `[0,10]` (importance) are filtered out and the result
is padded with the defaults to exactly the input length. -/
theorem llm_response_guards (response : Option (List (Option ℚ)))
    (neighbors words : List String) :
    batchSimilarity none neighbors = (neighbors.map fun _ => (1 / 2 : ℚ)) ∧
    calculateCurvature none words = (words.map fun _ => (2 : ℚ)) ∧
    (batchSimilarity response neighbors).length = neighbors.length ∧
    (∀ v ∈ batchSimilarity response neighbors, 0 ≤ v ∧ v ≤ 1) ∧
    (calculateCurvature response words).length = words.length ∧
    (∀ v ∈ calculateCurvature response words, 0 ≤ v ∧ v ≤ 10) := by
  refine ⟨rfl, rfl, ?_, ?_, ?_, ?_⟩
  · cases response with
    | none => simp [batchSimilarity]
    | some lines => exact padSlice_length ..
  · intro v hv
    cases response with
    | none =>
      rw [batchSimilarity, List.mem_map] at hv
      obtain ⟨_, _, hv⟩ := hv
      rw [← hv]
      norm_num
    | some lines =>
      rcases padSlice_mem hv with hmem | hd
      · have := (List.mem_filter.mp hmem).2
        exact of_decide_eq_true this
      · rw [hd]; norm_num
  · cases response with
    | none => simp [calculateCurvature]
    | some lines => exact padSlice_length ..
  · intro v hv
    cases response with
    | none =>
      rw [calculateCurvature, List.mem_map] at hv
      obtain ⟨_, _, hv⟩ := hv
      rw [← hv]
      norm_num
    | some lines =>
      rcases padSlice_mem hv with hmem | hd
      · have := (List.mem_filter.mp hmem).2
        exact of_decide_eq_true this
      · rw [hd]; norm_num

/-- C6 witness: a failed call over one neighbor yields `[0.5]`; a
response parsing to `1.5` (out of range), `0.25` and one unparseable
line, over two inputs, yields only in-range values. -/
theorem llm_response_guards_witness :
    batchSimilarity none ["alpha"] = (["alpha"].map fun _ => (1 / 2 : ℚ)) ∧
    ∀ v ∈ batchSimilarity (some [some (3 / 2), some (1 / 4), none]) ["alpha", "beta"],
      0 ≤ v ∧ v ≤ 1 :=
  ⟨(llm_response_guards none ["alpha"] []).1,
   (llm_response_guards (some [some (3 / 2), some (1 / 4), none]) ["alpha", "beta"] []).2.2.2.1⟩

/-- C7: the satellite expansion is deterministic (and, being modelled as
a pure function of its arguments, mutation-free): its result does not
depend on the ambient `Math.random` oracle — the source function
contains no `Math.random()` call — so two calls with the same
core-entity array and count produce identical satellite positions,
weights, centralities and parent assignments. -/
theorem generateFibonacciExpansion_deterministic (ops : MathOps)
    (rand1 rand2 : ℕ → ℚ) (coreNodes : List CoreEntity) (count : ℕ) :
    generateFibonacciExpansion ops rand1 coreNodes count =
      generateFibonacciExpansion ops rand2 coreNodes count := rfl

/-- C8 (amended: positive core weights): every satellite has
`distanceFromParent ≥ 0`, weight at most its parent's weight (the decay
factor `exp(-d/5)` lies in `[0,1]` for `d ≥ 0`), and a parent drawn
from the core list.  The claim as stated — for all NON-NEGATIVE
weights — fails at weight `0`; see the counterexample. -/
theorem fibExpansion_invariants (ops : MathOps) (rand : ℕ → ℚ)
    (coreNodes : List CoreEntity) (count : ℕ)
    (hne : coreNodes ≠ [])
    (hpos : ∀ c ∈ coreNodes, 0 < c.curvature)
    (hsqrt : ∀ q : ℚ, 0 ≤ q → 0 ≤ ops.sqrtQ q)
    (hexp : ∀ q : ℚ, q ≤ 0 → 0 ≤ ops.expQ q ∧ ops.expQ q ≤ 1) :
    ∀ nd ∈ generateFibonacciExpansion ops rand coreNodes count,
      0 ≤ nd.distanceFromParent ∧
      nd.curvature ≤ nd.parentNode.curvature ∧
      nd.parentNode ∈ coreNodes := by
  intro nd hnd
  simp only [generateFibonacciExpansion, List.mem_map] at hnd
  obtain ⟨i, _, rfl⟩ := hnd
  exact fibSatellite_invariant ops coreNodes _ i hne hpos hsqrt hexp

/-- C8 witness: one core entity of weight 3 at the origin, one
satellite, concrete operations (identity square root, `exp ≡ 1/2`). -/
theorem fibExpansion_invariants_witness :
    0 ≤ (generateFibonacciExpansion witOps (fun _ => 1 / 2)
          [⟨⟨0, 0, 0⟩, 3⟩] 1).headI.distanceFromParent ∧
    (generateFibonacciExpansion witOps (fun _ => 1 / 2)
        [⟨⟨0, 0, 0⟩, 3⟩] 1).headI.curvature ≤
      (generateFibonacciExpansion witOps (fun _ => 1 / 2)
        [⟨⟨0, 0, 0⟩, 3⟩] 1).headI.parentNode.curvature ∧
    (generateFibonacciExpansion witOps (fun _ => 1 / 2)
        [⟨⟨0, 0, 0⟩, 3⟩] 1).headI.parentNode ∈ [(⟨⟨0, 0, 0⟩, 3⟩ : CoreEntity)] :=
  fibExpansion_invariants witOps (fun _ => 1 / 2) [⟨⟨0, 0, 0⟩, 3⟩] 1
    (by simp)
    (by intro c hc; rw [List.mem_singleton] at hc; rw [hc]; norm_num)
    (by intro q hq; simpa [witOps] using hq)
    (by intro q _; constructor <;> norm_num [witOps])
    _ (by simp [generateFibonacciExpansion, List.range_succ])

/-- C8 counterexample: the claim as stated quantifies over NON-NEGATIVE
core weights.  With the single core entity of weight `0` (allowed by the
claim) the code's truthiness default `nearestCore.curvature || 5.0`
(QA 887) substitutes `5.0`, so the only satellite gets weight
`5 * exp(-0/5) = 5 > 0 = parent.weight` — on this input the inherited
weight exceeds the parent's weight. -/
theorem fibExpansion_weight_cex :
    (generateFibonacciExpansion cexOps (fun _ => 1 / 2) [⟨⟨0, 0, 0⟩, 0⟩] 1).length = 1 ∧
    (generateFibonacciExpansion cexOps (fun _ => 1 / 2) [⟨⟨0, 0, 0⟩, 0⟩] 1).headI.parentNode =
      ⟨⟨0, 0, 0⟩, 0⟩ ∧
    (generateFibonacciExpansion cexOps (fun _ => 1 / 2) [⟨⟨0, 0, 0⟩, 0⟩] 1).headI.curvature = 5 ∧
    ¬ ((generateFibonacciExpansion cexOps (fun _ => 1 / 2) [⟨⟨0, 0, 0⟩, 0⟩] 1).headI.curvature ≤
        (generateFibonacciExpansion cexOps (fun _ => 1 / 2)
          [⟨⟨0, 0, 0⟩, 0⟩] 1).headI.parentNode.curvature) := by
  have hpar : ∀ com : Vec3, (fibSatellite cexOps [⟨⟨0, 0, 0⟩, 0⟩] com 0).parentNode =
      (⟨⟨0, 0, 0⟩, 0⟩ : CoreEntity) := by
    intro com
    norm_num [fibSatellite, cumulativeWeights, curvatureOr5, selectParentIdx,
      List.findIdx?, List.range_succ]
  have hcurv : ∀ com : Vec3, (fibSatellite cexOps [⟨⟨0, 0, 0⟩, 0⟩] com 0).curvature = 5 := by
    intro com
    norm_num [fibSatellite, cumulativeWeights, curvatureOr5, selectParentIdx,
      List.findIdx?, List.range_succ, cexOps]
  have hred : ∃ com : Vec3, generateFibonacciExpansion cexOps (fun _ => 1 / 2) [⟨⟨0, 0, 0⟩, 0⟩] 1 =
      [fibSatellite cexOps [⟨⟨0, 0, 0⟩, 0⟩] com 0] := by
    refine ⟨((([⟨⟨0, 0, 0⟩, 0⟩] : List CoreEntity).length : ℚ))⁻¹ •
      (([⟨⟨0, 0, 0⟩, 0⟩] : List CoreEntity).map (·.targetPosition)).sum, ?_⟩
    simp [generateFibonacciExpansion, List.range_succ]
  obtain ⟨com, hred⟩ := hred
  rw [hred]
  simp only [List.headI_cons, List.length_cons, List.length_nil]
  rw [hpar com, hcurv com]
  norm_num

/-- C9: the candidate-connection scan returns only pairs of distinct
entities (pool indices `i < j`, so never `a == b`), both endpoints
having a target position; the recorded distance is the distance between
the two target positions and is strictly below the threshold `3.0`; and
no unordered pair occurs twice (the projected index-pair list has no
duplicates, every pair being emitted in `i < j` orientation). -/
theorem potentialConnections_sound (sqrtFn : ℚ → ℚ)
    (particles : List ConnParticle) :
    (∀ c ∈ calculatePotentialConnections sqrtFn particles,
      c.p1 < c.p2 ∧ c.p2 < particles.length ∧
      (∃ ta tb, (particles.getD c.p1 ⟨none⟩).targetPosition = some ta ∧
        (particles.getD c.p2 ⟨none⟩).targetPosition = some tb ∧
        c.distance = vdist sqrtFn ta tb) ∧
      c.distance < CONNECTION_THRESHOLD) ∧
    ((calculatePotentialConnections sqrtFn particles).map fun c => (c.p1, c.p2)).Nodup := by
  constructor
  · intro c hc
    rw [calculatePotentialConnections, List.mem_filterMap] at hc
    obtain ⟨ij, hij, hg⟩ := hc
    obtain ⟨hlt, hn⟩ := loopPairs_mem hij
    obtain ⟨ta, tb, hta, htb, hdlt, hceq⟩ := connCandidate_some hg
    subst hceq
    exact ⟨hlt, hn, ⟨ta, tb, hta, htb, rfl⟩, hdlt⟩
  · refine List.Nodup.sublist ?_ (loopPairs_nodup particles.length)
    refine map_filterMap_sublist _ _ ?_ _
    intro ij c hg
    obtain ⟨_, _, _, _, _, hceq⟩ := connCandidate_some hg
    subst hceq
    rfl

/-- C9 witness: two particles with targets at distance 1 produce a
candidate list whose single element is `(0, 1)` with recorded distance
`1 < 3`; concrete square root: the identity, exact at the input `1`
reached here. -/
theorem potentialConnections_sound_witness :
    (∀ c ∈ calculatePotentialConnections (fun q => q)
        [⟨some ⟨0, 0, 0⟩⟩, ⟨some ⟨1, 0, 0⟩⟩],
      c.p1 < c.p2 ∧ c.distance < CONNECTION_THRESHOLD) ∧
    (⟨0, 1, 1, false⟩ : PotentialConnection) ∈
      calculatePotentialConnections (fun q => q)
        [⟨some ⟨0, 0, 0⟩⟩, ⟨some ⟨1, 0, 0⟩⟩] ∧
    ((calculatePotentialConnections (fun q => q)
        [⟨some ⟨0, 0, 0⟩⟩, ⟨some ⟨1, 0, 0⟩⟩]).map fun c => (c.p1, c.p2)).Nodup := by
  have h := potentialConnections_sound (fun q => q)
    [⟨some ⟨0, 0, 0⟩⟩, ⟨some ⟨1, 0, 0⟩⟩]
  refine ⟨fun c hc => ⟨(h.1 c hc).1, (h.1 c hc).2.2.2⟩, ?_, h.2⟩
  have hlp : loopPairs 2 = [(0, 1)] := by decide
  rw [calculatePotentialConnections]
  simp only [List.length_cons, List.length_nil, hlp]
  norm_num [connCandidate, vdist, CONNECTION_THRESHOLD]

/-- C1 (amended): submitting a new non-empty question in any state
resets the decay/pause flags and clears the tracked interval timers,
leaves the phase state unchanged until the new space resolves (so the
machine never passes through IDLE/`SUPERPOSITION`), and on resolution
restarts at COLLAPSING (`VOID`) registering the new assembly's first
animation frame — but the previous assembly's in-flight phase
animation-frame tasks and pending timeouts are NOT cancelled (the
source has no `cancelAnimationFrame`/`clearTimeout`); they keep
running concurrently.  The claim's cancellation conjunct fails; see the
counterexample. -/
theorem interruption_semantics (st : Sim) (q : String) (hq : q ≠ "") :
    (submitQuestion q st).decayPaused = false ∧
    (submitQuestion q st).isDecaying = false ∧
    (submitQuestion q st).intervalTimers = [] ∧
    (submitQuestion q st).particleState = st.particleState ∧
    (submitQuestion q st).pendingFrames = st.pendingFrames ∧
    (submitQuestion q st).pendingTimeouts = st.pendingTimeouts ∧
    (llmSuccessStep (submitQuestion q st)).particleState = PhaseName.VOID ∧
    (llmSuccessStep (submitQuestion q st)).pendingFrames =
      ⟨st.assemblyId + 1, PhaseName.VOID⟩ :: st.pendingFrames := by
  rw [submitQuestion, if_neg hq]
  exact ⟨rfl, rfl, rfl, rfl, rfl, rfl, rfl, rfl⟩

/-- C1 witness: the amended behavior at the concrete mid-`ATTRACTION`
state and the question string `"why"`. -/
theorem interruption_semantics_witness :
    (submitQuestion "why" midAssemblySim).decayPaused = false ∧
    (submitQuestion "why" midAssemblySim).isDecaying = false ∧
    (submitQuestion "why" midAssemblySim).intervalTimers = [] ∧
    (submitQuestion "why" midAssemblySim).particleState = midAssemblySim.particleState ∧
    (submitQuestion "why" midAssemblySim).pendingFrames = midAssemblySim.pendingFrames ∧
    (submitQuestion "why" midAssemblySim).pendingTimeouts = midAssemblySim.pendingTimeouts ∧
    (llmSuccessStep (submitQuestion "why" midAssemblySim)).particleState = PhaseName.VOID ∧
    (llmSuccessStep (submitQuestion "why" midAssemblySim)).pendingFrames =
      ⟨midAssemblySim.assemblyId + 1, PhaseName.VOID⟩ :: midAssemblySim.pendingFrames :=
  interruption_semantics midAssemblySim "why" (by decide)

/-- C1 counterexample: in the mid-`ATTRACTION` state (non-IDLE), with
assembly 1's animation frame in flight, submitting the non-empty
question `"why"` does NOT cancel that in-flight frame task: it is still
pending after the handler's synchronous part, and still pending after
the new assembly has restarted at `VOID` — refuting the claim's
"all in-flight phase timers/animations of the previous assembly are
immediately cancelled". -/
theorem interruption_cancellation_cex :
    midAssemblySim.particleState ≠ PhaseName.SUPERPOSITION ∧
    (submitQuestion "why" midAssemblySim).pendingFrames =
      [⟨1, PhaseName.ATTRACTION⟩] ∧
    (llmSuccessStep (submitQuestion "why" midAssemblySim)).pendingFrames =
      [⟨2, PhaseName.VOID⟩, ⟨1, PhaseName.ATTRACTION⟩] ∧
    ([⟨1, PhaseName.ATTRACTION⟩] : List FrameTask) ≠ [] := by
  refine ⟨by decide, ?_, ?_, by decide⟩
  · rw [submitQuestion, if_neg (by decide : ("why" : String) ≠ "")]
    rfl
  · rw [submitQuestion, if_neg (by decide : ("why" : String) ≠ "")]
    rfl

/-- C2 (amended): while `decayPaused` is set during decay, a frame of
`updateContextDecay` changes nothing at all (positions, velocities, edge
opacities, state); no phase other than the decay of the `ASSEMBLED`
state is pausable (the Space handler is a no-op unless
`assemblyPhase === 'ASSEMBLED' && isDecaying`); but the decay progress
is NOT a stored accumulator: every unpaused frame applies
`min(1, (now - decayStartTime - 30000) / 45000)` derived from the
wall clock, so resuming jumps to the current wall-clock progress rather
than continuing from the value at pause entry (see the
counterexample). -/
theorem decayPause_semantics (ops : MathOps) (rand : ℕ → ℚ) (st : Sim)
    (hdec : st.isDecaying = true) :
    (st.decayPaused = true → updateContextDecay ops rand st = st) ∧
    (∀ st2 : Sim, st2.isDecaying = false → handleSpaceKey st2 = st2) ∧
    (∀ st3 : Sim, st3.assemblyPhase ≠ PhaseName.ASSEMBLED → handleSpaceKey st3 = st3) ∧
    (st.particleState = PhaseName.ASSEMBLED → st.decayPaused = false →
      min 1 ((st.now - st.decayStartTime - CONTEXT_DECAY_START) / CONTEXT_DECAY_DURATION) < 1 →
      (updateContextDecay ops rand st).connections = st.connections.map fun c =>
        { c with
          opacity := c.baseOpacity *
            (1 - min 1 ((st.now - st.decayStartTime - CONTEXT_DECAY_START) /
              CONTEXT_DECAY_DURATION) * (4 / 5))
          emissiveIntensity := 1 / 2 *
            (1 - min 1 ((st.now - st.decayStartTime - CONTEXT_DECAY_START) /
              CONTEXT_DECAY_DURATION)) }) := by
  refine ⟨?_, ?_, ?_, ?_⟩
  · intro hp
    rw [updateContextDecay]
    by_cases hps : st.particleState ≠ PhaseName.ASSEMBLED
    · rw [if_pos hps]
    · rw [if_neg hps]
      simp only [hdec, hp, Bool.true_eq_false, and_false, if_false, if_true]
  · intro st2 h2
    rw [handleSpaceKey]
    rw [if_neg (by rw [h2]; simp)]
  · intro st3 h3
    rw [handleSpaceKey]
    rw [if_neg (by simp [h3])]
  · intro hps hp hlt
    rw [updateContextDecay]
    rw [if_neg (by simp [hps])]
    simp only [hdec, hp, Bool.true_eq_false, and_false, if_false, if_true]
    rw [if_neg (not_le.mpr hlt)]
    rw [if_neg (by simp)]

/-- C2 witness: the paused frame at 35000 ms is the identity on the
concrete decaying state, and the Space handler ignores the
non-decaying mid-`ATTRACTION` state. -/
theorem decayPause_semantics_witness :
    updateContextDecay cexOps (fun _ => 1 / 2) decayPausedSim = decayPausedSim ∧
    handleSpaceKey midAssemblySim = midAssemblySim :=
  ⟨(decayPause_semantics cexOps (fun _ => 1 / 2) decayPausedSim rfl).1 rfl,
   (decayPause_semantics cexOps (fun _ => 1 / 2) decayPausedSim rfl).2.1 midAssemblySim rfl⟩

/-- C2 counterexample: the pause is entered at wall-clock progress
`1/9` (35000 ms).  Were resumption to continue from the pause-entry
progress, the first resumed frame would lerp the particle from the
origin toward `(9,0,0)` by `1/9 * 0.02`, landing at `x = 1/50`.  The
code instead applies the wall-clock progress `2/9` at 40000 ms and
lands at `x = 1/25 ≠ 1/50`: the progress accumulated during the
pause. -/
theorem decayPause_resume_cex :
    (updateContextDecay cexOps (fun _ => 1 / 2) decayResumedSim).particles.headI.pos.x = 1 / 25 ∧
    decayCexParticle.pos.x + 1 / 9 * (1 / 50) * (9 - decayCexParticle.pos.x) = 1 / 50 ∧
    ¬ ((1 : ℚ) / 25 = 1 / 50) := by
  refine ⟨?_, by norm_num [decayCexParticle], by norm_num⟩
  have hmin : min (1 : ℚ) ((40000 - CONTEXT_DECAY_START) / CONTEXT_DECAY_DURATION) = 2 / 9 := by
    rw [CONTEXT_DECAY_START, CONTEXT_DECAY_DURATION]
    rw [min_eq_right (by norm_num)]
    norm_num
  rw [updateContextDecay]
  rw [if_neg (by simp [decayResumedSim, decayPausedSim])]
  simp only [decayResumedSim, decayPausedSim, decayCexParticle]
  norm_num [hmin, decayParticleUpdate, List.mapIdx_cons]

/-- C5: if the provider fails during the first word-generation step
(`generateCoreWords` throws after `queryGroq` returns `null`), the whole
assembly aborts: a visible `Assembly failed: ...` status is posted, a
2000 ms timeout re-entering superposition is scheduled, and firing it
puts the machine back in IDLE (`SUPERPOSITION`) with the decay and
pause flags cleared — never stuck in a non-IDLE non-progressing
state. -/
theorem llmFailure_recovery (ops : MathOps) (rand : ℕ → ℚ) (st : Sim)
    (q msg : String) (hq : q ≠ "") :
    (llmFailureStep msg (submitQuestion q st)).statusText = "Assembly failed: " ++ msg ∧
    (llmFailureStep msg (submitQuestion q st)).pendingTimeouts.head? =
      some (2000, TimeoutAction.enterSuperpositionTimeout) ∧
    (runTimeoutAction ops rand TimeoutAction.enterSuperpositionTimeout
      (llmFailureStep msg (submitQuestion q st))).particleState = PhaseName.SUPERPOSITION ∧
    (runTimeoutAction ops rand TimeoutAction.enterSuperpositionTimeout
      (llmFailureStep msg (submitQuestion q st))).isDecaying = false ∧
    (runTimeoutAction ops rand TimeoutAction.enterSuperpositionTimeout
      (llmFailureStep msg (submitQuestion q st))).decayPaused = false := by
  rw [submitQuestion, if_neg hq]
  exact ⟨rfl, rfl, rfl, rfl, rfl⟩

/-- C5 witness: the failure path at the concrete mid-`ATTRACTION`
state, with the message thrown by `generateCoreWords`. -/
theorem llmFailure_recovery_witness :
    (llmFailureStep "Failed to generate words from LLM"
        (submitQuestion "why" midAssemblySim)).statusText =
      "Assembly failed: " ++ "Failed to generate words from LLM" ∧
    (llmFailureStep "Failed to generate words from LLM"
        (submitQuestion "why" midAssemblySim)).pendingTimeouts.head? =
      some (2000, TimeoutAction.enterSuperpositionTimeout) ∧
    (runTimeoutAction cexOps (fun _ => 1 / 2) TimeoutAction.enterSuperpositionTimeout
      (llmFailureStep "Failed to generate words from LLM"
        (submitQuestion "why" midAssemblySim))).particleState = PhaseName.SUPERPOSITION ∧
    (runTimeoutAction cexOps (fun _ => 1 / 2) TimeoutAction.enterSuperpositionTimeout
      (llmFailureStep "Failed to generate words from LLM"
        (submitQuestion "why" midAssemblySim))).isDecaying = false ∧
    (runTimeoutAction cexOps (fun _ => 1 / 2) TimeoutAction.enterSuperpositionTimeout
      (llmFailureStep "Failed to generate words from LLM"
        (submitQuestion "why" midAssemblySim))).decayPaused = false :=
  llmFailure_recovery cexOps (fun _ => 1 / 2) midAssemblySim "why"
    "Failed to generate words from LLM" (by decide)

theorem applyPairForce_isSome (sqrtFn : ℚ → ℚ) (distM : ℕ → ℕ → ℚ)
    (pos F : ℕ → Vec3) (ij : ℕ × ℕ) :
    (applyPairForce sqrtFn distM pos F ij).isSome := by
  simp only [applyPairForce]
  split
  · rw [if_neg (by norm_num : ¬(1 / 10 : ℚ) = 0)]
    rfl
  · rfl

theorem iterStep_isSome (sqrtFn : ℚ → ℚ) (distM : ℕ → ℕ → ℚ) (n : ℕ)
    (pos : ℕ → Vec3) : (iterStep sqrtFn distM n pos).isSome := by
  rw [iterStep]
  have h := foldlM_option_isSome (applyPairForce sqrtFn distM pos) (loopPairs n)
    (fun _ => 0) (fun c a _ => applyPairForce_isSome sqrtFn distM pos c a)
  obtain ⟨F, hF⟩ := Option.isSome_iff_exists.mp h
  rw [hF]
  rfl

theorem projectTo3D_exists (sqrtFn : ℚ → ℚ) (rand : ℕ → ℚ) (n : ℕ)
    (distM : ℕ → ℕ → ℚ) :
    ∃ ps, projectTo3D sqrtFn rand n distM = some ps ∧ ps.length = n := by
  rw [projectTo3D]
  have h := foldlM_option_isSome (fun pos _ => iterStep sqrtFn distM n pos)
    (List.range 100) (initPos rand) (fun c a _ => iterStep_isSome sqrtFn distM n c)
  obtain ⟨posF, hF⟩ := Option.isSome_iff_exists.mp h
  rw [hF]
  exact ⟨_, rfl, by simp⟩

theorem sum_double_update (F : ℕ → Vec3) (i j n : ℕ) (v : Vec3)
    (hij : i ≠ j) (hi : i < n) (hj : j < n) :
    Finset.sum (Finset.range n)
      (Function.update (Function.update F i (F i + v)) j
        (Function.update F i (F i + v) j - v)) =
    Finset.sum (Finset.range n) F := by
  have hja : j ∈ Finset.range n := Finset.mem_range.mpr hj
  have hia : i ∈ Finset.range n \ {j} := by
    rw [Finset.mem_sdiff, Finset.mem_singleton]
    exact ⟨Finset.mem_range.mpr hi, hij⟩
  rw [Finset.sum_update_of_mem hja]
  rw [Finset.sum_update_of_mem hia]
  rw [Function.update_noteq hij.symm]
  rw [Finset.sum_eq_sum_diff_singleton_add hja F]
  rw [Finset.sum_eq_sum_diff_singleton_add hia F]
  abel

theorem applyPairForce_sum {sqrtFn : ℚ → ℚ} {distM : ℕ → ℕ → ℚ}
    {pos F F2 : ℕ → Vec3} {ij : ℕ × ℕ} (n : ℕ)
    (hij : ij ∈ loopPairs n)
    (h : applyPairForce sqrtFn distM pos F ij = some F2) :
    Finset.sum (Finset.range n) F2 = Finset.sum (Finset.range n) F := by
  obtain ⟨hlt, hn⟩ := loopPairs_mem hij
  have hne : ij.1 ≠ ij.2 := Nat.ne_of_lt hlt
  have hi : ij.1 < n := lt_trans hlt hn
  simp only [applyPairForce] at h
  split at h
  · rw [if_neg (by norm_num : ¬(1 / 10 : ℚ) = 0)] at h
    rw [← Option.some.inj h]
    exact sum_double_update F ij.1 ij.2 n _ hne hi hn
  · rw [← Option.some.inj h]
    exact sum_double_update F ij.1 ij.2 n _ hne hi hn

theorem iterStep_sum {sqrtFn : ℚ → ℚ} {distM : ℕ → ℕ → ℚ} {n : ℕ}
    {pos pos2 : ℕ → Vec3}
    (h : iterStep sqrtFn distM n pos = some pos2) :
    Finset.sum (Finset.range n) pos2 = Finset.sum (Finset.range n) pos := by
  rw [iterStep] at h
  cases hF : (loopPairs n).foldlM (applyPairForce sqrtFn distM pos) (fun _ => (0 : Vec3)) with
  | none => rw [hF] at h; exact absurd h (by simp)
  | some F =>
    rw [hF] at h
    have hsum : Finset.sum (Finset.range n) F = 0 :=
      foldlM_option_preserve (applyPairForce sqrtFn distM pos)
        (fun G => Finset.sum (Finset.range n) G = 0) (loopPairs n) (fun _ => 0)
        (by simp)
        (fun c a d ha hc hg => by
          show Finset.sum (Finset.range n) d = 0
          rw [applyPairForce_sum n ha hg]
          exact hc) F hF
    have hp : (fun i => pos i + (1 / 10 : ℚ) • F i) = pos2 := by simpa using h
    rw [← hp]
    rw [Finset.sum_add_distrib, ← Finset.smul_sum, hsum, smul_zero, add_zero]

/-- C3: for every N×N symmetric distance matrix with zero diagonal and
non-negative entries (the all-zero matrix included), the layout returns
exactly N 3D positions and the computation is total — the `Option`
threading, whose `none` marks a NaN born from division by zero, never
yields `none`, because the `|| 0.1` guard substitutes the epsilon `0.1`
whenever the pairwise distance is zero (coincident points), so every
divisor is non-zero.  True for ANY square-root oracle and random
stream. -/
theorem projectTo3D_total (sqrtFn : ℚ → ℚ) (rand : ℕ → ℚ) (n : ℕ)
    (distM : ℕ → ℕ → ℚ)
    (hsymm : ∀ i j, i < n → j < n → distM i j = distM j i)
    (hdiag : ∀ i, i < n → distM i i = 0)
    (hnn : ∀ i j, i < n → j < n → 0 ≤ distM i j) :
    ∃ ps, projectTo3D sqrtFn rand n distM = some ps ∧ ps.length = n :=
  projectTo3D_exists sqrtFn rand n distM

/-- C3 witness: the degenerate all-zero 2×2 matrix with all points
initially coincident at the origin. -/
theorem projectTo3D_total_witness :
    ∃ ps, projectTo3D (fun q => q) (fun _ => 1 / 2) 2 (fun _ _ => 0) = some ps ∧
      ps.length = 2 :=
  projectTo3D_total (fun q => q) (fun _ => 1 / 2) 2 (fun _ _ => 0)
    (fun _ _ _ _ => rfl) (fun _ _ => rfl) (fun _ _ _ _ => le_refl 0)

/-- C10 (implicit): in each relaxation iteration the accumulated
pairwise forces are equal and opposite (`forces[i] += f*d` is mirrored
by `forces[j] -= f*d`), so the force table always sums to zero and the
sum — hence, the lengths being equal, the centroid — of the N positions
is preserved across all 100 iterations: the returned layout's
coordinate sum equals that of the initial random placement. -/
theorem projectTo3D_centroid (sqrtFn : ℚ → ℚ) (rand : ℕ → ℚ) (n : ℕ)
    (distM : ℕ → ℕ → ℚ) (ps : List Vec3)
    (h : projectTo3D sqrtFn rand n distM = some ps) :
    ps.sum = ((List.range n).map (initPos rand)).sum ∧
    ps.length = ((List.range n).map (initPos rand)).length := by
  rw [projectTo3D] at h
  cases hF : (List.range 100).foldlM (fun pos _ => iterStep sqrtFn distM n pos)
      (initPos rand) with
  | none => rw [hF] at h; exact absurd h (by simp)
  | some posF =>
    rw [hF] at h
    have hsum : Finset.sum (Finset.range n) posF =
        Finset.sum (Finset.range n) (initPos rand) :=
      foldlM_option_preserve (fun pos _ => iterStep sqrtFn distM n pos)
        (fun G => Finset.sum (Finset.range n) G =
          Finset.sum (Finset.range n) (initPos rand))
        (List.range 100) (initPos rand) rfl
        (fun c a d _ hc hg => by
          show Finset.sum (Finset.range n) d = Finset.sum (Finset.range n) (initPos rand)
          rw [iterStep_sum hg]
          exact hc) posF hF
    have hps : (List.range n).map posF = ps := by simpa using h
    rw [← hps]
    exact ⟨by rw [sum_map_range, sum_map_range]; exact hsum, by simp⟩

/-- C10 witness: a single point (no pairs, so zero net force each
iteration) — the returned layout's sum equals the initial placement's
sum. -/
theorem projectTo3D_centroid_witness :
    ∃ ps, projectTo3D (fun q => q) (fun _ => 1 / 2) 1 (fun _ _ => 0) = some ps ∧
      ps.sum = ((List.range 1).map (initPos fun _ => 1 / 2)).sum := by
  obtain ⟨ps, hps, _⟩ := projectTo3D_exists (fun q => q) (fun _ => 1 / 2) 1 (fun _ _ => 0)
  exact ⟨ps, hps, (projectTo3D_centroid (fun q => q) (fun _ => 1 / 2) 1
    (fun _ _ => 0) ps hps).1⟩

theorem twoPoint_iterStep (sqrtFn : ℚ → ℚ)
    (hsqrt : ∀ r : ℚ, 0 ≤ r → sqrtFn (r * r) = r)
    (pos : ℕ → Vec3) (a b : ℚ) (hab : a < b)
    (hp0 : pos 0 = ⟨a, 0, 0⟩) (hp1 : pos 1 = ⟨b, 0, 0⟩) :
    ∃ pos2, iterStep sqrtFn (fun i j => if i = j then 0 else 1) 2 pos = some pos2 ∧
      pos2 0 = ⟨a + (b - a - 10) / 100, 0, 0⟩ ∧
      pos2 1 = ⟨b - (b - a - 10) / 100, 0, 0⟩ := by
  have hd : (0 : ℚ) < b - a := sub_pos.mpr hab
  have hbne : b - a ≠ 0 := ne_of_gt hd
  have hx : (pos 1).x - (pos 0).x = b - a := by rw [hp0, hp1]
  have hy : (pos 1).y - (pos 0).y = 0 := by rw [hp0, hp1]; norm_num
  have hz : (pos 1).z - (pos 0).z = 0 := by rw [hp0, hp1]; norm_num
  have hd0 : sqrtFn (((pos 1).x - (pos 0).x) * ((pos 1).x - (pos 0).x) +
      ((pos 1).y - (pos 0).y) * ((pos 1).y - (pos 0).y) +
      ((pos 1).z - (pos 0).z) * ((pos 1).z - (pos 0).z)) = b - a := by
    rw [hx, hy, hz]
    rw [show (b - a) * (b - a) + 0 * 0 + 0 * 0 = (b - a) * (b - a) from by ring]
    exact hsqrt (b - a) (le_of_lt hd)
  obtain ⟨pos2, hpos2⟩ := Option.isSome_iff_exists.mp
    (iterStep_isSome sqrtFn (fun i j => if i = j then 0 else 1) 2 pos)
  refine ⟨pos2, hpos2, ?_, ?_⟩ <;>
  · rw [iterStep] at hpos2
    rw [show loopPairs 2 = [(0, 1)] from by decide] at hpos2
    simp only [List.foldlM_cons, List.foldlM_nil, bind_pure] at hpos2
    simp only [applyPairForce] at hpos2
    rw [hd0] at hpos2
    simp only [if_neg hbne] at hpos2
    simp only [Option.map_some'] at hpos2
    have hfun := Option.some.inj hpos2
    rw [← hfun]
    simp only [hx, hy, hz]
    simp only [Function.update, hp0, hp1]
    norm_num
    ext <;> simp <;> field_simp <;> ring

theorem twoPoint_iterList (sqrtFn : ℚ → ℚ)
    (hsqrt : ∀ r : ℚ, 0 ≤ r → sqrtFn (r * r) = r) :
    ∀ (l : List ℕ) (pos : ℕ → Vec3) (a b : ℚ), a < b →
      pos 0 = ⟨a, 0, 0⟩ → pos 1 = ⟨b, 0, 0⟩ →
      ∃ (posF : ℕ → Vec3) (c d : ℚ),
        l.foldlM (fun p _ => iterStep sqrtFn (fun i j => if i = j then 0 else 1) 2 p)
          pos = some posF ∧
        posF 0 = ⟨c, 0, 0⟩ ∧ posF 1 = ⟨d, 0, 0⟩ ∧ c < d ∧
        d - c - 10 = (49 / 50 : ℚ) ^ l.length * (b - a - 10) := by
  intro l
  induction l with
  | nil =>
    intro pos a b hab hp0 hp1
    exact ⟨pos, a, b, by simp, hp0, hp1, hab, by simp⟩
  | cons hd tl ih =>
    intro pos a b hab hp0 hp1
    obtain ⟨pos2, hstep, hq0, hq1⟩ := twoPoint_iterStep sqrtFn hsqrt pos a b hab hp0 hp1
    have hpos : (0 : ℚ) < b - a := sub_pos.mpr hab
    have hab2 : a + (b - a - 10) / 100 < b - (b - a - 10) / 100 := by linarith
    obtain ⟨posF, c, d, hfold, hc, hdq, hcd, hrec⟩ := ih pos2 _ _ hab2 hq0 hq1
    refine ⟨posF, c, d, ?_, hc, hdq, hcd, ?_⟩
    · rw [List.foldlM_cons, hstep]
      simpa using hfold
    · rw [hrec]
      rw [show b - (b - a - 10) / 100 - (a + (b - a - 10) / 100) - 10 =
        49 / 50 * (b - a - 10) from by ring]
      rw [List.length_cons, pow_succ]
      ring

/-- C4 (amended): for the 2×2 distance matrix `[[0,1],[1,0]]`, after the
fixed 100 relaxation iterations (spring constant 0.1, learning rate 0.1,
scale factor 10), the returned positions differ only in `x` and their
Euclidean distance `p1.x - p0.x` lies within ±15% of
`scaleFactor * 1 = 10` — PROVIDED the initial random placement puts the
two points on a common axis line (here the `x`-axis, via random draws of
exactly `1/2` for the other coordinates) at distinct positions.  The
separation then satisfies `d_(k+1) = 0.98 d_k + 0.2`, and
`|d_100 - 10| = (49/50)^100 |d_0 - 10| < (3/20)*10 = 1.5` since
`0 < d_0 < 20` inside the side-20 cube.  The claim as stated — for
EVERY placement in the cube — fails at coincident placements (see the
counterexample), and the tolerance is also exceeded for initial
separations above `10 + 1.5*(50/49)^100 ≈ 21.3` (attainable on the cube
diagonal). -/
theorem layout_two_point_convergence (sqrtFn : ℚ → ℚ) (rand : ℕ → ℚ)
    (hsqrt : ∀ r : ℚ, 0 ≤ r → sqrtFn (r * r) = r)
    (hr1 : rand 1 = 1 / 2) (hr2 : rand 2 = 1 / 2)
    (hr4 : rand 4 = 1 / 2) (hr5 : rand 5 = 1 / 2)
    (hlt : rand 0 < rand 3) (hlo : 0 ≤ rand 0) (hhi : rand 3 < 1) :
    ∃ p0 p1 : Vec3,
      projectTo3D sqrtFn rand 2 (fun i j => if i = j then 0 else 1) = some [p0, p1] ∧
      p0.y = p1.y ∧ p0.z = p1.z ∧
      17 / 2 ≤ p1.x - p0.x ∧ p1.x - p0.x ≤ 23 / 2 := by
  have hp0 : initPos rand 0 = ⟨(rand 0 - 1 / 2) * 20, 0, 0⟩ := by
    simp only [initPos]
    norm_num [hr1, hr2]
  have hp1 : initPos rand 1 = ⟨(rand 3 - 1 / 2) * 20, 0, 0⟩ := by
    simp only [initPos]
    norm_num [hr4, hr5]
  have hab : (rand 0 - 1 / 2) * 20 < (rand 3 - 1 / 2) * 20 := by linarith
  obtain ⟨posF, c, d, hfold, hc, hdq, hcd, hrec⟩ :=
    twoPoint_iterList sqrtFn hsqrt (List.range 100) (initPos rand) _ _ hab hp0 hp1
  rw [List.length_range] at hrec
  have hd0pos : (0 : ℚ) < (rand 3 - 1 / 2) * 20 - (rand 0 - 1 / 2) * 20 := by linarith
  have hd0hi : (rand 3 - 1 / 2) * 20 - (rand 0 - 1 / 2) * 20 < 20 := by linarith
  have hpow_pos : (0 : ℚ) < (49 / 50 : ℚ) ^ 100 := by positivity
  have hpow_le : ((49 : ℚ) / 50) ^ 100 ≤ 3 / 20 := by norm_num
  have hub : (49 / 50 : ℚ) ^ 100 *
      ((rand 3 - 1 / 2) * 20 - (rand 0 - 1 / 2) * 20 - 10) ≤ 3 / 2 := by
    have h1 := mul_le_mul_of_nonneg_left
      (by linarith : (rand 3 - 1 / 2) * 20 - (rand 0 - 1 / 2) * 20 - 10 ≤ 10) hpow_pos.le
    nlinarith
  have hlb : -(3 / 2 : ℚ) ≤ (49 / 50 : ℚ) ^ 100 *
      ((rand 3 - 1 / 2) * 20 - (rand 0 - 1 / 2) * 20 - 10) := by
    have h1 := mul_le_mul_of_nonneg_left
      (by linarith : -10 ≤ (rand 3 - 1 / 2) * 20 - (rand 0 - 1 / 2) * 20 - 10) hpow_pos.le
    nlinarith
  refine ⟨posF 0, posF 1, ?_, ?_, ?_, ?_, ?_⟩
  · rw [projectTo3D, hfold]
    simp [List.range_succ]
  · rw [hc, hdq]
  · rw [hc, hdq]
  · rw [hc, hdq]
    show (17 : ℚ) / 2 ≤ d - c
    linarith
  · rw [hc, hdq]
    show d - c ≤ (23 : ℚ) / 2
    linarith

/-- C4 witness: the amended convergence at the concrete axis-aligned
placement drawn from the random stream that returns `3/4` at index 3 and
`1/2` elsewhere (points start at `x = 0` and `x = 5`), with the exact
rational square root (which agrees with the IEEE `Math.sqrt` on the
perfect squares reached along this trajectory). -/
theorem layout_two_point_convergence_witness :
    ∃ p0 p1 : Vec3,
      projectTo3D Rat.sqrt (fun k => if k = 3 then 3 / 4 else 1 / 2) 2
        (fun i j => if i = j then 0 else 1) = some [p0, p1] ∧
      p0.y = p1.y ∧ p0.z = p1.z ∧
      17 / 2 ≤ p1.x - p0.x ∧ p1.x - p0.x ≤ 23 / 2 :=
  layout_two_point_convergence Rat.sqrt (fun k => if k = 3 then 3 / 4 else 1 / 2)
    (fun r h => ratSqrt_mul_self h)
    (by norm_num) (by norm_num) (by norm_num) (by norm_num)
    (by norm_num) (by norm_num) (by norm_num)

theorem coincident_iterStep (sqrtFn : ℚ → ℚ) (h0 : sqrtFn 0 = 0)
    (pos : ℕ → Vec3) (hp0 : pos 0 = ⟨0, 0, 0⟩) (hp1 : pos 1 = ⟨0, 0, 0⟩) :
    ∃ pos2, iterStep sqrtFn (fun i j => if i = j then 0 else 1) 2 pos = some pos2 ∧
      pos2 0 = ⟨0, 0, 0⟩ ∧ pos2 1 = ⟨0, 0, 0⟩ := by
  have hx : (pos 1).x - (pos 0).x = 0 := by rw [hp0, hp1]; norm_num
  have hy : (pos 1).y - (pos 0).y = 0 := by rw [hp0, hp1]; norm_num
  have hz : (pos 1).z - (pos 0).z = 0 := by rw [hp0, hp1]; norm_num
  have hd0 : sqrtFn (((pos 1).x - (pos 0).x) * ((pos 1).x - (pos 0).x) +
      ((pos 1).y - (pos 0).y) * ((pos 1).y - (pos 0).y) +
      ((pos 1).z - (pos 0).z) * ((pos 1).z - (pos 0).z)) = 0 := by
    rw [hx, hy, hz]
    rw [show (0 : ℚ) * 0 + 0 * 0 + 0 * 0 = 0 from by ring]
    exact h0
  obtain ⟨pos2, hpos2⟩ := Option.isSome_iff_exists.mp
    (iterStep_isSome sqrtFn (fun i j => if i = j then 0 else 1) 2 pos)
  refine ⟨pos2, hpos2, ?_, ?_⟩ <;>
  · rw [iterStep] at hpos2
    rw [show loopPairs 2 = [(0, 1)] from by decide] at hpos2
    simp only [List.foldlM_cons, List.foldlM_nil, bind_pure] at hpos2
    simp only [applyPairForce] at hpos2
    rw [hd0] at hpos2
    norm_num at hpos2
    rw [← hpos2]
    simp only [hx, hy, hz]
    simp only [Function.update, hp0, hp1]
    norm_num
    ext <;> simp

theorem coincident_iterList (sqrtFn : ℚ → ℚ) (h0 : sqrtFn 0 = 0) :
    ∀ (l : List ℕ) (pos : ℕ → Vec3), pos 0 = ⟨0, 0, 0⟩ → pos 1 = ⟨0, 0, 0⟩ →
      ∃ posF, l.foldlM
        (fun p _ => iterStep sqrtFn (fun i j => if i = j then 0 else 1) 2 p)
        pos = some posF ∧ posF 0 = ⟨0, 0, 0⟩ ∧ posF 1 = ⟨0, 0, 0⟩ := by
  intro l
  induction l with
  | nil =>
    intro pos hp0 hp1
    exact ⟨pos, by simp, hp0, hp1⟩
  | cons hd tl ih =>
    intro pos hp0 hp1
    obtain ⟨pos2, hstep, hq0, hq1⟩ := coincident_iterStep sqrtFn h0 pos hp0 hp1
    obtain ⟨posF, hfold, hc0, hc1⟩ := ih pos2 hq0 hq1
    refine ⟨posF, ?_, hc0, hc1⟩
    rw [List.foldlM_cons, hstep]
    simpa using hfold

/-- C4 counterexample: the claim quantifies over EVERY initial random
placement within the side-20 cube.  The stream that returns `1/2` on
every draw places both points at the origin (inside the cube); with
coincident points every pairwise difference is zero, the `|| 0.1`
epsilon only guards the divisor, the force `f * 0` vanishes, and the
two points never separate: after the 100 iterations the returned
positions coincide, so their Euclidean distance is `0`, far outside
`[8.5, 11.5]` (±15% of 10). -/
theorem layout_two_point_cex :
    projectTo3D Rat.sqrt (fun _ => 1 / 2) 2 (fun i j => if i = j then 0 else 1) =
      some [⟨0, 0, 0⟩, ⟨0, 0, 0⟩] ∧
    vdist Rat.sqrt ⟨0, 0, 0⟩ ⟨0, 0, 0⟩ = 0 ∧
    ¬ ((17 : ℚ) / 2 ≤ 0) := by
  have h0 : Rat.sqrt 0 = 0 := by
    have h := ratSqrt_mul_self (le_refl (0 : ℚ))
    rw [show (0 : ℚ) * 0 = 0 from by ring] at h
    exact h
  have hp0 : initPos (fun _ => (1 : ℚ) / 2) 0 = ⟨0, 0, 0⟩ := by
    simp only [initPos]
    norm_num
  have hp1 : initPos (fun _ => (1 : ℚ) / 2) 1 = ⟨0, 0, 0⟩ := by
    simp only [initPos]
    norm_num
  obtain ⟨posF, hfold, hc0, hc1⟩ :=
    coincident_iterList Rat.sqrt h0 (List.range 100) (initPos fun _ => (1 : ℚ) / 2) hp0 hp1
  refine ⟨?_, ?_, by norm_num⟩
  · rw [projectTo3D, hfold]
    simp [List.range_succ, hc0, hc1]
  · rw [vdist]
    rw [show ((⟨0, 0, 0⟩ : Vec3).x - (⟨0, 0, 0⟩ : Vec3).x) *
        ((⟨0, 0, 0⟩ : Vec3).x - (⟨0, 0, 0⟩ : Vec3).x) +
        ((⟨0, 0, 0⟩ : Vec3).y - (⟨0, 0, 0⟩ : Vec3).y) *
        ((⟨0, 0, 0⟩ : Vec3).y - (⟨0, 0, 0⟩ : Vec3).y) +
        ((⟨0, 0, 0⟩ : Vec3).z - (⟨0, 0, 0⟩ : Vec3).z) *
        ((⟨0, 0, 0⟩ : Vec3).z - (⟨0, 0, 0⟩ : Vec3).z) = 0 from by norm_num]
    exact h0
